import Mathlib

/-!
Verification of the fleck starspot light-curve engine (src/fleck/core.py and
src/fleck/jax.py) against its natural-language specification.

Shallow embedding conventions:
  machine floats are modelled as real numbers with exact arithmetic;
  numpy sqrt of a negative argument yields NaN, modelled by an Option-valued
  wrapper that returns none exactly when the radicand is negative;
  the jax pseudo-random primitives (random.split, random.uniform) are external
  and are taken as explicit function parameters;
  numpy masked arrays are modelled as if-then-else on the mask condition, and
  the final filled(0) as the value 0 on masked entries.
-/

namespace Fleck

open Real

noncomputable section

/-- Cartesian position: observer at positive x, (y, z) the sky plane
(convention of core.py spot_params_to_cartesian). -/
structure V3 where
  x : ℝ
  y : ℝ
  z : ℝ

/-- Action of the astropy rotation_matrix about the z axis on a vector.
astropy builds, for axis z, the matrix with rows
(cos a, sin a, 0), (-sin a, cos a, 0), (0, 0, 1),
and CartesianRepresentation.transform left-multiplies it onto the vector. -/
def rotZ (a : ℝ) (v : V3) : V3 :=
  ⟨Real.cos a * v.x + Real.sin a * v.y,
   -Real.sin a * v.x + Real.cos a * v.y,
   v.z⟩

/-- Action of the astropy rotation_matrix about the y axis: rows
(cos a, 0, -sin a), (0, 1, 0), (sin a, 0, cos a). -/
def rotY (a : ℝ) (v : V3) : V3 :=
  ⟨Real.cos a * v.x - Real.sin a * v.z,
   v.y,
   Real.sin a * v.x + Real.cos a * v.z⟩

/-- Action of the astropy rotation_matrix about the x axis: rows
(1, 0, 0), (0, cos a, sin a), (0, -sin a, cos a). -/
def rotX (a : ℝ) (v : V3) : V3 :=
  ⟨v.x,
   Real.cos a * v.y + Real.sin a * v.z,
   -Real.sin a * v.y + Real.cos a * v.z⟩

/-- UnitSphericalRepresentation (lon, lat) represented as cartesian
coordinates, as astropy does: x = cos lat cos lon, y = cos lat sin lon,
z = sin lat. -/
def sphericalToCartesian (lon lat : ℝ) : V3 :=
  ⟨Real.cos lat * Real.cos lon, Real.cos lat * Real.sin lon, Real.sin lat⟩

/-- Transiting-planet parameters, restricted to the field used by the
coordinate transform: the optional spin-orbit misalignment angle lam
(hasattr(planet, lam) modelled by the Option). -/
structure Planet where
  lam : Option ℝ

/-- The misalignment angle read by spot_params_to_cartesian: planet.lam when a
planet with a lam attribute is supplied, otherwise 0 (core.py lines 438-441). -/
def lamOf : Option Planet → ℝ
  | none => 0
  | some p =>
    match p.lam with
    | none => 0
    | some l => l

/-- Pipeline of core.py Star.spot_params_to_cartesian with the misalignment
angle made explicit: spots are represented in cartesian coordinates, rotated
about the stellar rotation axis (z) by the rotation phase, then rotated by
the stellar inclination minus 90 degrees about y, then tilted by the
spin-orbit misalignment about x (core.py lines 417-453). -/
def tilted_spot (lon lat phase inc lam : ℝ) : V3 :=
  rotX lam (rotY (inc - Real.pi / 2) (rotZ phase (sphericalToCartesian lon lat)))

/-- core.py Star.spot_params_to_cartesian for a single spot: the misalignment
angle is taken from the optional planet argument. -/
def spot_params_to_cartesian (lon lat phase inc : ℝ) (planet : Option Planet) : V3 :=
  tilted_spot lon lat phase inc (lamOf planet)

/-- Sanity check of the pipeline: at inclination 90 degrees, zero phase and
zero misalignment, the spot at longitude and latitude 0 faces the observer. -/
theorem tilted_spot_zero : tilted_spot 0 0 0 (Real.pi / 2) 0 = ⟨1, 0, 0⟩ := by
  simp [tilted_spot, rotX, rotY, rotZ, sphericalToCartesian]

/-- Arithmetic part of core.py limb_darkening (lines 15-33): the quadratic
limb-darkening law evaluated with mu = sqrt(1 - r squared). -/
def limb_darkening_val (u1 u2 r : ℝ) : ℝ :=
  (1 - u1 * (1 - Real.sqrt (1 - r ^ 2)) - u2 * (1 - Real.sqrt (1 - r ^ 2)) ^ 2) /
    (1 - u1 / 3 - u2 / 6) / Real.pi

/-- core.py limb_darkening with numpy NaN semantics: np.sqrt(1 - r ** 2)
yields NaN exactly when 1 - r ** 2 < 0, and the NaN propagates through the
remaining arithmetic, so the function returns none in that case. -/
def limb_darkening (u1 u2 r : ℝ) : Option ℝ :=
  if 1 - r ^ 2 < 0 then none else some (limb_darkening_val u1 u2 r)

/-- Arithmetic part of core.py limb_darkening_normed (lines 36-52):
limb_darkening(u_ld, r) / limb_darkening(u_ld, 0). -/
def limb_darkening_normed_val (u1 u2 r : ℝ) : ℝ :=
  limb_darkening_val u1 u2 r / limb_darkening_val u1 u2 0

/-- core.py limb_darkening_normed with NaN propagation. -/
def limb_darkening_normed (u1 u2 r : ℝ) : Option ℝ := do
  let a ← limb_darkening u1 u2 r
  let b ← limb_darkening u1 u2 0
  pure (a / b)

/-- core.py total_flux (lines 55-70): 2 pi times the integral over r in [0, 1]
of r times the normalized limb-darkening law; the scipy adaptive quadrature is
modelled by the exact integral it approximates. -/
def total_flux (u1 u2 : ℝ) : ℝ :=
  2 * Real.pi * ∫ r in (0:ℝ)..1, r * limb_darkening_normed_val u1 u2 r

/-- numpy hypot. -/
def hypot (a b : ℝ) : ℝ := Real.sqrt (a ^ 2 + b ^ 2)

/-- Projected distance of a spot from the stellar centroid,
np.hypot(tilted_spots.y, tilted_spots.z) in core.py line 194. -/
def spot_r (p : V3) : ℝ := hypot p.y p.z

/-- Per-spot out-of-transit flux deficit of core.py Star.light_curve lines
192-201 after filled(0): the spot distance r is masked where the spot is
behind the star (x < 0) and the masked entries are filled with 0 in line 309;
unmasked entries carry pi radius^2 (1 - contrast) ld(r) sqrt(1 - r^2). -/
def f_spot_filled (contrast u1 u2 rad : ℝ) (p : V3) : ℝ :=
  if p.x < 0 then 0
  else
    Real.pi * rad ^ 2 * (1 - contrast) * limb_darkening_normed_val u1 u2 (spot_r p) *
      Real.sqrt (1 - spot_r p ^ 2)

/-- Per-spot deficits of a whole spot list (one radius and position per spot):
the mask preserves the array shape, it does not delete entries. -/
def f_spots_filled (contrast u1 u2 : ℝ) (spots : List (ℝ × V3)) : List ℝ :=
  spots.map fun s => f_spot_filled contrast u1 u2 s.1 s.2

/-- jax.py ActiveStar.limb_darkening (lines 198-204), a function of mu. -/
def jax_limb_darkening (u1 u2 mu : ℝ) : ℝ :=
  1 / Real.pi * (1 - u1 * (1 - mu) - u2 * (1 - mu) ^ 2) / (1 - u1 / 3 - u2 / 6)

/-- Rotational phase of jax.py ActiveStar.spot_coords line 129:
2 pi (t - t0) / P_rot. -/
def jax_phase (t t0 P_rot : ℝ) : ℝ := 2 * Real.pi * (t - t0) / P_rot

/-- Azimuth variable phi of jax.py spot_coords line 137. -/
def jax_phi (phase lon : ℝ) : ℝ := Real.pi / 2 - phase - lon

/-- Observer-frame spot position of jax.py spot_coords lines 144-152 as a
function of phi (in this variant the visible hemisphere is z < 0). -/
def jax_position_of_phi (phi lat inc : ℝ) : V3 :=
  ⟨Real.cos (phi - Real.pi / 2) * Real.sin (Real.pi / 2 - inc) * Real.sin lat +
     Real.cos (Real.pi / 2 - inc) * Real.cos lat,
   -Real.sin (phi - Real.pi / 2) * Real.sin lat,
   Real.cos lat * Real.sin (Real.pi / 2 - inc) -
     Real.sin phi * Real.cos (Real.pi / 2 - inc) * Real.sin lat⟩

/-- jax.py spot position as a function of the rotation phase. -/
def jax_spot_position (phase lon lat inc : ℝ) : V3 :=
  jax_position_of_phi (jax_phi phase lon) lat inc

/-- jax.py ActiveStar.spot_coords position at a time t. -/
def spot_coords_position (t t0 P_rot lon lat inc : ℝ) : V3 :=
  jax_spot_position (jax_phase t t0 P_rot) lon lat inc

/-- jax.py mu = sqrt(1 - x^2 - y^2) (rotation_model lines 100-101). -/
def jax_mu (p : V3) : ℝ := Real.sqrt (1 - (p.x ^ 2 + p.y ^ 2))

/-- jax.py rotation_model lines 102-104: jnp.where(z < 0, mu, 0). -/
def mask_behind_star (p : V3) : ℝ := if p.z < 0 then jax_mu p else 0

/-- Per-spot summand of the rotational model, jax.py rotation_model lines
107-113: rad^2 (1 - contrast) ld(mu)/ld(1) mask_behind_star. -/
def jax_spot_term (u1 u2 rad contrast : ℝ) (p : V3) : ℝ :=
  rad ^ 2 * (1 - contrast) *
    (jax_limb_darkening u1 u2 (jax_mu p) / jax_limb_darkening u1 u2 1) *
    mask_behind_star p

/-- Helper: the jax spot position is unchanged when phi decreases by a full
turn. -/
theorem jax_position_of_phi_sub_two_pi (phi lat inc : ℝ) :
    jax_position_of_phi (phi - 2 * Real.pi) lat inc = jax_position_of_phi phi lat inc := by
  unfold jax_position_of_phi
  have h1 : phi - 2 * Real.pi - Real.pi / 2 = phi - Real.pi / 2 - 2 * Real.pi := by ring
  rw [h1, Real.cos_sub_two_pi, Real.sin_sub_two_pi, Real.sin_sub_two_pi]

/-- C6: limb_darkening fails (NaN, modelled as none) for every evaluation
radius r strictly greater than 1; on [0, 1] it returns the quadratic-law value
(1 - u1 (1 - mu) - u2 (1 - mu)^2) / (1 - u1/3 - u2/6) / pi with
mu = sqrt(1 - r^2); and at r = 1 it evaluates without dividing by zero to
(1 - u1 - u2) / (1 - u1/3 - u2/6) / pi, whose denominator is the same
r-independent expression as at every other radius. -/
theorem C6_limb_darkening_domain (u1 u2 r : ℝ) :
    (1 < r → limb_darkening u1 u2 r = none) ∧
    (0 ≤ r → r ≤ 1 →
      limb_darkening u1 u2 r =
        some ((1 - u1 * (1 - Real.sqrt (1 - r ^ 2)) - u2 * (1 - Real.sqrt (1 - r ^ 2)) ^ 2) /
          (1 - u1 / 3 - u2 / 6) / Real.pi)) ∧
    limb_darkening u1 u2 1 = some ((1 - u1 - u2) / (1 - u1 / 3 - u2 / 6) / Real.pi) := by
  refine ⟨?_, ?_, ?_⟩
  · intro h
    have hneg : 1 - r ^ 2 < 0 := by nlinarith
    simp [limb_darkening, hneg]
  · intro h0 h1
    have hpos : ¬(1 - r ^ 2 < 0) := by nlinarith
    simp [limb_darkening, hpos, limb_darkening_val]
  · norm_num [limb_darkening, limb_darkening_val]

/-- Witness for C6 at r = 2 (outside the disk) and r = 1/2 (inside). -/
theorem C6_witness :
    limb_darkening 0 0 2 = none ∧
    limb_darkening (1/2) (1/5) (1/2) =
      some ((1 - 1/2 * (1 - Real.sqrt (1 - (1/2:ℝ) ^ 2)) -
        1/5 * (1 - Real.sqrt (1 - (1/2:ℝ) ^ 2)) ^ 2) / (1 - (1/2)/3 - (1/5)/6) / Real.pi) :=
  ⟨(C6_limb_darkening_domain 0 0 2).1 (by norm_num),
   (C6_limb_darkening_domain (1/2) (1/5) (1/2)).2.1 (by norm_num) (by norm_num)⟩

/-- C7: for physically valid quadratic limb-darkening coefficients
(nonnegative u1, everywhere-nonnegative law slope u1 + 2 u2 at the limb) with
u1 + u2 < 1, the normalized limb-darkening flux at disk center is exactly 1. -/
theorem C7_normalized_central_flux (u1 u2 : ℝ) (h0 : 0 ≤ u1) (h1 : u1 + u2 < 1)
    (h2 : 0 ≤ u1 + 2 * u2) :
    limb_darkening_normed u1 u2 0 = some 1 := by
  have hd : 0 < 1 - u1 / 3 - u2 / 6 := by nlinarith
  have hsimp : limb_darkening_val u1 u2 0 = 1 / (1 - u1 / 3 - u2 / 6) / Real.pi := by
    unfold limb_darkening_val
    norm_num
  have hne : limb_darkening_val u1 u2 0 ≠ 0 := by
    rw [hsimp]
    exact div_ne_zero (div_ne_zero one_ne_zero (ne_of_gt hd)) Real.pi_ne_zero
  have hc : ¬((1:ℝ) < 0) := by norm_num
  simp [limb_darkening_normed, limb_darkening, hc, div_self hne]

/-- Witness for C7 at u_ld = (1/2, 1/5). -/
theorem C7_witness : limb_darkening_normed (1/2) (1/5) 0 = some 1 :=
  C7_normalized_central_flux (1/2) (1/5) (by norm_num) (by norm_num) (by norm_num)

/-- C8: total_flux is 2 pi times the integral over [0, 1] of r times the
normalized limb-darkening law, and at u_ld = (0, 0) its exact value is pi
(so the adaptive quadrature result agrees with pi to its tolerance). -/
theorem C8_total_flux_uniform : total_flux 0 0 = Real.pi := by
  have h : ∀ r : ℝ, r * limb_darkening_normed_val 0 0 r = r := by
    intro r
    have hval : limb_darkening_val 0 0 r = 1 / Real.pi := by
      unfold limb_darkening_val
      norm_num
    have hval0 : limb_darkening_val 0 0 0 = 1 / Real.pi := by
      unfold limb_darkening_val
      norm_num
    have : limb_darkening_normed_val 0 0 r = 1 := by
      unfold limb_darkening_normed_val
      rw [hval, hval0]
      exact div_self (one_div_ne_zero Real.pi_ne_zero)
    rw [this, mul_one]
  unfold total_flux
  simp only [h]
  rw [integral_id]
  ring

/-- C9: advancing the rotation phase by exactly 2 pi returns every spot to its
original observer-frame cartesian position, in the core variant
(spot_params_to_cartesian pipeline for every longitude, latitude, inclination
and misalignment) and in the jax variant (spot_coords position). -/
theorem C9_rotation_periodicity (lon lat phase inc lam : ℝ) :
    tilted_spot lon lat (phase + 2 * Real.pi) inc lam = tilted_spot lon lat phase inc lam ∧
    jax_spot_position (phase + 2 * Real.pi) lon lat inc = jax_spot_position phase lon lat inc := by
  constructor
  · unfold tilted_spot rotZ
    rw [Real.cos_add_two_pi, Real.sin_add_two_pi]
  · unfold jax_spot_position
    have h : jax_phi (phase + 2 * Real.pi) lon = jax_phi phase lon - 2 * Real.pi := by
      unfold jax_phi
      ring
    rw [h, jax_position_of_phi_sub_two_pi]

/-- C3: a spot whose observer-frame coordinate places it on the far hemisphere
contributes exactly zero flux deficit, for every spot parameter, phase,
inclination, misalignment, radius and contrast, in the core variant (x < 0,
masked then filled with 0) and in the jax variant (z not below 0, multiplied
by the zero branch of jnp.where); and the per-spot deficit array keeps the
shape of the spot array (masked, not removed). -/
theorem C3_behind_star_zero_deficit :
    (∀ lon lat phase inc lam contrast u1 u2 rad,
      (tilted_spot lon lat phase inc lam).x < 0 →
      f_spot_filled contrast u1 u2 rad (tilted_spot lon lat phase inc lam) = 0) ∧
    (∀ phase lon lat inc u1 u2 rad contrast,
      0 ≤ (jax_spot_position phase lon lat inc).z →
      jax_spot_term u1 u2 rad contrast (jax_spot_position phase lon lat inc) = 0) ∧
    (∀ contrast u1 u2 spots,
      (f_spots_filled contrast u1 u2 spots).length = spots.length) := by
  refine ⟨?_, ?_, ?_⟩
  · intro lon lat phase inc lam c u1 u2 rad h
    simp [f_spot_filled, h]
  · intro phase lon lat inc u1 u2 rad c h
    have hz : ¬((jax_spot_position phase lon lat inc).z < 0) := not_lt.mpr h
    simp [jax_spot_term, mask_behind_star, hz]
  · intro c u1 u2 spots
    simp [f_spots_filled]

/-- Witness for C3: a spot at longitude pi seen at inclination pi/2 sits
behind the star in the core variant, and a polar spot at phase 0 in the jax
geometry has z = 1 and contributes nothing. -/
theorem C3_witness :
    f_spot_filled 0 (1/2) (1/5) (1/10) (tilted_spot Real.pi 0 0 (Real.pi/2) 0) = 0 ∧
    jax_spot_term (1/2) (1/5) (1/10) 0 (jax_spot_position 0 Real.pi (Real.pi/2) (Real.pi/2)) = 0 := by
  have hx : (tilted_spot Real.pi 0 0 (Real.pi/2) 0).x < 0 := by
    norm_num [tilted_spot, rotX, rotY, rotZ, sphericalToCartesian]
  have hz : (0:ℝ) ≤ (jax_spot_position 0 Real.pi (Real.pi/2) (Real.pi/2)).z := by
    unfold jax_spot_position jax_position_of_phi jax_phi
    norm_num [Real.sin_neg, Real.sin_pi_div_two]
  exact ⟨C3_behind_star_zero_deficit.1 Real.pi 0 0 (Real.pi/2) 0 0 (1/2) (1/5) (1/10) hx,
    C3_behind_star_zero_deficit.2.1 0 Real.pi (Real.pi/2) (Real.pi/2) (1/2) (1/5) (1/10) 0 hz⟩

/-- astropy rotation_matrix for axis z, the matrix applied by the rotate step
of spot_params_to_cartesian (core.py lines 427-436). -/
def rotZMat (a : ℝ) : Matrix (Fin 3) (Fin 3) ℝ :=
  !![Real.cos a, Real.sin a, 0; -Real.sin a, Real.cos a, 0; 0, 0, 1]

/-- astropy rotation_matrix for axis y, applied by the stellar-inclination
step (core.py line 445). -/
def rotYMat (a : ℝ) : Matrix (Fin 3) (Fin 3) ℝ :=
  !![Real.cos a, 0, -Real.sin a; 0, 1, 0; Real.sin a, 0, Real.cos a]

/-- astropy rotation_matrix for axis x, applied by the misalignment tilt step
(core.py line 450). -/
def rotXMat (a : ℝ) : Matrix (Fin 3) (Fin 3) ℝ :=
  !![1, 0, 0; 0, Real.cos a, Real.sin a; 0, -Real.sin a, Real.cos a]

/-- Modelled from the spec: the single operator obtained by composing exactly
three rotations in the stated order, the rotation about the stellar spin axis
(z) by the rotation phase acting first, then the rotation about the sky-plane
horizontal axis (y) by inclination minus 90 degrees, then the rotation about
the line-of-sight axis (x) by the spin-orbit misalignment angle. -/
def threeRotationsSpec (lam inc phase : ℝ) : Matrix (Fin 3) (Fin 3) ℝ :=
  rotXMat lam * rotYMat (inc - Real.pi / 2) * rotZMat phase

/-- View a V3 as a coordinate vector. -/
def toFin3 (v : V3) : Fin 3 → ℝ := ![v.x, v.y, v.z]

/-- C4: the observer-frame spot position produced by the source pipeline is
exactly the action of the composite of the three claimed rotations, in the
claimed order, on the initial cartesian spot position, and the misalignment
angle defaults to 0 when no planet (or a planet without a lam attribute)
is supplied. -/
theorem C4_three_rotation_composition (lon lat phase inc : ℝ) (planet : Option Planet) :
    toFin3 (spot_params_to_cartesian lon lat phase inc planet) =
      Matrix.mulVec (threeRotationsSpec (lamOf planet) inc phase)
        (toFin3 (sphericalToCartesian lon lat)) ∧
    lamOf none = 0 ∧ lamOf (some ⟨none⟩) = 0 := by
  refine ⟨?_, rfl, rfl⟩
  funext i
  fin_cases i <;>
    simp [spot_params_to_cartesian, tilted_spot, rotX, rotY, rotZ, toFin3,
      threeRotationsSpec, rotXMat, rotYMat, rotZMat, Matrix.mulVec, Matrix.mul_apply,
      Matrix.dotProduct, Fin.sum_univ_three, sphericalToCartesian] <;>
    ring

/-- numpy max along the spot axis of one row of the intersections array
(core.py line 305): the maximum of a nonempty list of per-spot corrections. -/
def npmax (l : List ℝ) : ℝ :=
  match l with
  | [] => 0
  | h :: t => t.foldl max h

/-- Per-spot occultation correction of core.py lines 296-301:
(1 - spot_contrast) / spot_ld_factor * overlap_area / pi. -/
def intersection_correction (contrast ld_factor overlap_area : ℝ) : ℝ :=
  (1 - contrast) / ld_factor * overlap_area / Real.pi

/-- core.py line 305 for one time step: the spotless transit depth minus the
maximum of the per-spot corrections. -/
def lambda_e_corrected (lambda_e : ℝ) (corrections : List ℝ) : ℝ :=
  lambda_e - npmax corrections

/-- Per-spot scaled occultation of jax.py transit_model lines 308-313:
minus the minimum of the contaminated transit times (1 - contrast) times the
fraction occulted. -/
def scaled_occultation (min_contaminated_transit contrast frac_occulted : ℝ) : ℝ :=
  -min_contaminated_transit * ((1 - contrast) * frac_occulted)

/-- jax.py transit_model line 317 at one time and wavelength: the out of
transit flux times one plus the sum over the spot axis of the per-spot scaled
occultation plus the (spot-broadcast) contaminated transit. -/
def jax_transit_combine (out_of_transit contaminated_transit : ℝ)
    (scaled_occ : List ℝ) : ℝ :=
  out_of_transit * (1 + (scaled_occ.map fun s => s + contaminated_transit).sum)

/-- Helper: a left fold of max starts at or returns a member. -/
theorem foldl_max_cases (t : List ℝ) (a : ℝ) : t.foldl max a = a ∨ t.foldl max a ∈ t := by
  induction t generalizing a with
  | nil => exact Or.inl rfl
  | cons b t ih =>
    rw [List.foldl_cons]
    rcases ih (max a b) with h | h
    · rcases max_choice a b with h2 | h2
      · exact Or.inl (h.trans h2)
      · refine Or.inr ?_
        rw [h, h2]
        exact List.mem_cons_self b t
    · exact Or.inr (List.mem_cons_of_mem b h)

/-- Helper: a left fold of max bounds its seed and every member from above. -/
theorem le_foldl_max (t : List ℝ) (a : ℝ) :
    a ≤ t.foldl max a ∧ ∀ x ∈ t, x ≤ t.foldl max a := by
  induction t generalizing a with
  | nil => exact ⟨le_refl a, by simp⟩
  | cons b t ih =>
    rw [List.foldl_cons]
    obtain ⟨h1, h2⟩ := ih (max a b)
    refine ⟨le_trans (le_max_left a b) h1, ?_⟩
    intro x hx
    rcases List.mem_cons.mp hx with rfl | hx
    · exact le_trans (le_max_right a x) h1
    · exact h2 x hx

/-- Helper: summing a list shifted by a constant. -/
theorem sum_map_add_const (l : List ℝ) (t : ℝ) :
    (l.map fun s => s + t).sum = l.sum + l.length * t := by
  induction l with
  | nil => simp
  | cons b l ih =>
    simp [ih]
    ring

/-- Helper: summing a constant over a list. -/
theorem sum_map_const (l : List ℝ) (c : ℝ) :
    (l.map fun _ => c).sum = l.length * c := by
  induction l with
  | nil => simp
  | cons b l ih =>
    simp [ih]
    ring

/-- Helper: for a nonempty list, npmax is a member that bounds every
member from above. -/
theorem npmax_spec (l : List ℝ) (hne : l ≠ []) :
    npmax l ∈ l ∧ ∀ x ∈ l, x ≤ npmax l := by
  obtain ⟨h, t, rfl⟩ := List.exists_cons_of_ne_nil hne
  constructor
  · show t.foldl max h ∈ h :: t
    rcases foldl_max_cases t h with he | he
    · rw [he]
      exact List.mem_cons_self h t
    · exact List.mem_cons_of_mem h he
  · intro x hx
    show x ≤ t.foldl max h
    rcases List.mem_cons.mp hx with rfl | hx
    · exact (le_foldl_max t x).1
    · exact (le_foldl_max t h).2 x hx

/-- C1 amended: at a time step with several concurrently occulted spots, the
exact-geometry variant (core.py) subtracts exactly the largest of the
per-spot corrections (1 - contrast) / ld_factor * overlap_area / pi, a member
of the correction list bounding all others; the Monte Carlo variant (jax.py)
instead changes the assembled flux by the out of transit flux times the SUM
over the spot axis of the per-spot scaled occultations, not by the largest
one. Each element of spot_data is a pair of one spot limb-darkening factor
and one planet-spot overlap area. -/
theorem C1_occultation_policy (lambda_e contrast f0 contaminated_transit : ℝ)
    (spot_data : List (ℝ × ℝ)) (occs : List ℝ) (hne : spot_data ≠ []) :
    (lambda_e -
        lambda_e_corrected lambda_e
          (spot_data.map fun q => intersection_correction contrast q.1 q.2) =
        npmax (spot_data.map fun q => intersection_correction contrast q.1 q.2) ∧
      npmax (spot_data.map fun q => intersection_correction contrast q.1 q.2) ∈
        (spot_data.map fun q => intersection_correction contrast q.1 q.2) ∧
      ∀ x ∈ (spot_data.map fun q => intersection_correction contrast q.1 q.2),
        x ≤ npmax (spot_data.map fun q => intersection_correction contrast q.1 q.2)) ∧
    jax_transit_combine f0 contaminated_transit occs -
      jax_transit_combine f0 contaminated_transit (occs.map fun _ => 0) =
      f0 * occs.sum := by
  have hneL : (spot_data.map fun q => intersection_correction contrast q.1 q.2) ≠ [] := by
    simpa using hne
  obtain ⟨hmem, hub⟩ := npmax_spec _ hneL
  refine ⟨⟨by unfold lambda_e_corrected; ring, hmem, hub⟩, ?_⟩
  unfold jax_transit_combine
  rw [sum_map_add_const]
  have hz : ((occs.map fun _ => (0:ℝ)).map fun s => s + contaminated_transit).sum =
      occs.length * contaminated_transit := by
    rw [List.map_map]
    have h2 : ((fun s => s + contaminated_transit) ∘ fun _ : ℝ => (0:ℝ)) =
        fun _ : ℝ => contaminated_transit := by
      funext x
      simp
    rw [h2, sum_map_const]
  rw [hz]
  ring

/-- Witness for C1 at two concurrent spots (unit limb-darkening factor,
overlap areas pi and 2 pi) in the core variant and a single half-occulted
spot in the jax variant. -/
theorem C1_witness :
    ((1:ℝ) -
        lambda_e_corrected 1
          ((([(1, Real.pi), (1, 2 * Real.pi)] : List (ℝ × ℝ))).map fun q =>
            intersection_correction 0 q.1 q.2) =
        npmax ((([(1, Real.pi), (1, 2 * Real.pi)] : List (ℝ × ℝ))).map fun q =>
          intersection_correction 0 q.1 q.2) ∧
      npmax ((([(1, Real.pi), (1, 2 * Real.pi)] : List (ℝ × ℝ))).map fun q =>
          intersection_correction 0 q.1 q.2) ∈
        ((([(1, Real.pi), (1, 2 * Real.pi)] : List (ℝ × ℝ))).map fun q =>
          intersection_correction 0 q.1 q.2) ∧
      ∀ x ∈ ((([(1, Real.pi), (1, 2 * Real.pi)] : List (ℝ × ℝ))).map fun q =>
          intersection_correction 0 q.1 q.2),
        x ≤ npmax ((([(1, Real.pi), (1, 2 * Real.pi)] : List (ℝ × ℝ))).map fun q =>
          intersection_correction 0 q.1 q.2)) ∧
    jax_transit_combine 2 (-(1/100)) [1/2] -
      jax_transit_combine 2 (-(1/100)) (([1/2] : List ℝ).map fun _ => 0) =
      2 * ([1/2] : List ℝ).sum :=
  C1_occultation_policy 1 0 2 (-(1/100)) [(1, Real.pi), (1, 2 * Real.pi)] [1/2] (by simp)

/-- Counterexample to C1 as stated: in the Monte Carlo variant, with two
spots simultaneously occulted (fractions 3/10 and 1/2, contrast 0, minimum
contaminated transit -1/100), the assembled correction to the light curve is
the sum 8/1000 of the two per-spot scaled occultations, not their largest
value 5/1000. -/
theorem C1_counterexample :
    jax_transit_combine 1 (-(1/100))
        [scaled_occultation (-(1/100)) 0 (3/10), scaled_occultation (-(1/100)) 0 (1/2)] -
      jax_transit_combine 1 (-(1/100)) [0, 0] ≠
    npmax [scaled_occultation (-(1/100)) 0 (3/10), scaled_occultation (-(1/100)) 0 (1/2)] := by
  have h1 : scaled_occultation (-(1/100)) 0 (3/10) = (3/1000 : ℝ) := by
    unfold scaled_occultation; norm_num
  have h2 : scaled_occultation (-(1/100)) 0 (1/2) = (5/1000 : ℝ) := by
    unfold scaled_occultation; norm_num
  rw [h1, h2]
  unfold jax_transit_combine npmax
  simp [max_eq_right (by norm_num : (3:ℝ)/1000 ≤ 5/1000)]
  norm_num

/-- Progress and error events of core.py Star.light_curve in execution
order. -/
inductive LCEvent
  | spotGeometry
  | configError
  | transitGeometry
  | result
deriving DecidableEq

/-- The stellar-inclination argument: a scalar quantity or an array of
inclination values (inc_stellar.isscalar distinguishes them). -/
inductive IncStellar
  | scalar (v : ℝ)
  | array (vs : List ℝ)

/-- astropy isscalar of the inclination argument. -/
def IncStellar.isScalar : IncStellar → Bool
  | .scalar _ => true
  | .array _ => false

/-- Observable event order of core.py Star.light_curve: the spot geometry
(spot_params_to_cartesian and the masked per-spot deficits, lines 188-201)
always runs first; then, when a planet is supplied and inc_stellar is not
scalar, the ValueError of lines 207-210 (the ConfigurationError of the spec)
is raised; otherwise the transit geometry runs and the flux is returned. -/
def light_curve_events (planet : Bool) (inc : IncStellar) : List LCEvent :=
  LCEvent.spotGeometry ::
    (match planet, inc.isScalar with
     | false, _ => [LCEvent.result]
     | true, true => [LCEvent.transitGeometry, LCEvent.result]
     | true, false => [LCEvent.configError])

/-- Formalization of the claimed ordering: the configuration error occurs
in the trace and strictly before the spot-geometry computation. -/
def fails_before_geometry (tr : List LCEvent) : Prop :=
  LCEvent.configError ∈ tr ∧
    tr.indexOf LCEvent.configError < tr.indexOf LCEvent.spotGeometry

/-- C2 amended: with a planet and more than one stellar inclination the call
fails with the configuration error, but only after the spot geometry has been
computed (the trace is exactly spot geometry then error, with no transit
geometry and no result); with a scalar inclination and a planet no
configuration error occurs. -/
theorem C2_config_error_order (vs : List ℝ) (v : ℝ) (hlen : 1 < vs.length) :
    light_curve_events true (IncStellar.array vs) =
      [LCEvent.spotGeometry, LCEvent.configError] ∧
    LCEvent.configError ∉ light_curve_events true (IncStellar.scalar v) := by
  exact ⟨rfl, by simp [light_curve_events, IncStellar.isScalar]⟩

/-- Witness for C2 with two inclination values and with one scalar value. -/
theorem C2_witness :
    light_curve_events true (IncStellar.array [70, 80]) =
      [LCEvent.spotGeometry, LCEvent.configError] ∧
    LCEvent.configError ∉ light_curve_events true (IncStellar.scalar 70) :=
  C2_config_error_order [70, 80] 70 (by norm_num)

/-- Counterexample to C2 as stated: with a planet and two stellar
inclinations the configuration error is raised, but the spot geometry is
computed before it, so the failure does not happen before any geometry. -/
theorem C2_counterexample :
    LCEvent.configError ∈ light_curve_events true (IncStellar.array [70, 80]) ∧
    ¬fails_before_geometry (light_curve_events true (IncStellar.array [70, 80])) := by
  constructor
  · simp [light_curve_events, IncStellar.isScalar]
  · intro h
    obtain ⟨-, hlt⟩ := h
    revert hlt
    decide

/-- Class attribute key = random.PRNGKey(0) of jax.py line 27, a fixed key
modelled by seed 0; instances of ActiveStar never rebind it. -/
def activeStarClassKey : ℕ := 0

/-- jnp.radians: degrees to radians. -/
def radians_of_degrees (d : ℝ) : ℝ := d * Real.pi / 180

/-- Membership of a sample point in the rotated spot ellipse, jax.py
find_overlap lines 341-346: jnp.hypot of the two rotated, axis-scaled
coordinates is below 1. -/
def in_ellipse (xp yp x0e y0e alpha beta angle : ℝ) : Prop :=
  hypot (((xp - x0e) * Real.cos (radians_of_degrees angle) +
          (yp - y0e) * Real.sin (radians_of_degrees angle)) / alpha)
        (((xp - x0e) * Real.sin (radians_of_degrees angle) -
          (yp - y0e) * Real.cos (radians_of_degrees angle)) / beta) < 1

/-- The sample lies on the stellar disk, jax.py line 336. -/
def on_star (xp yp : ℝ) : Prop := hypot xp yp < 1

/-- jax.py find_overlap (lines 338-348): a sample point counts for a spot
exactly when it is inside the spot ellipse and on the stellar disk. -/
def find_overlap (xp yp x0e y0e alpha beta angle : ℝ) : Prop :=
  in_ellipse xp yp x0e y0e alpha beta angle ∧ on_star xp yp

/-- Instance attributes of jax.py ActiveStar (lines 29-55); the PRNG key is
deliberately absent: it is a class attribute that no instance ever shadows
or assigns. -/
structure ActiveStarState where
  times : List ℝ
  lon : List ℝ
  lat : List ℝ
  rad : List ℝ
  spectrum : List ℝ
  inclination : ℝ
  u_ld1 : ℝ
  u_ld2 : ℝ
  P_rot : ℝ

/-- jax.py ActiveStar.area_union_per_time (lines 322-362), parametric in the
external jax.random primitives: split maps a key to a pair of keys, and
uniformSample key lo hi i is entry i of random.uniform(key, minval=lo,
maxval=hi, shape=(n_mc,)). The body splits the class-level key, draws the
sample angles from the first result of the first split and the sample radii
from the second result of a second split, maps the samples into the planet
disk, and returns the per-spot, per-sample occultation masks, computing
find_overlap only where an occultation is possible. -/
def area_union_per_time (split : ℕ → ℕ × ℕ) (uniformSample : ℕ → ℝ → ℝ → ℕ → ℝ)
    (x0_ellipse y0_ellipse : ℕ → ℝ) (x0_circle y0_circle : ℝ)
    (alpha beta angle : ℕ → ℝ) (radius : ℝ)
    (occultation_possible : ℕ → Bool) : ℕ → ℕ → Prop :=
  let key1 := (split activeStarClassKey).1
  let theta_p := uniformSample key1 0 (2 * Real.pi)
  let subkey2 := (split key1).2
  let rad_p := uniformSample subkey2 0 radius
  let xp := fun i => rad_p i * Real.cos (theta_p i) + x0_circle
  let yp := fun i => rad_p i * Real.sin (theta_p i) + y0_circle
  fun k i =>
    if occultation_possible k then
      find_overlap (xp i) (yp i) (x0_ellipse k) (y0_ellipse k) (alpha k) (beta k) (angle k)
    else False

/-- One call of area_union_per_time on an ActiveStar instance: the instance
state goes in and comes back; the body performs no attribute assignment, so
the returned state is the argument state, and the only key material read is
the class-level constant. -/
def area_union_call (split : ℕ → ℕ × ℕ) (uniformSample : ℕ → ℝ → ℝ → ℕ → ℝ)
    (s : ActiveStarState)
    (x0_ellipse y0_ellipse : ℕ → ℝ) (x0_circle y0_circle : ℝ)
    (alpha beta angle : ℕ → ℝ) (radius : ℝ)
    (occultation_possible : ℕ → Bool) : ActiveStarState × (ℕ → ℕ → Prop) :=
  (s, area_union_per_time split uniformSample x0_ellipse y0_ellipse x0_circle y0_circle
    alpha beta angle radius occultation_possible)

/-- C10: the Monte Carlo overlap estimator is deterministic across calls. A
call leaves the instance state (hence any random state) unchanged, and the
per-sample occultation masks depend only on the splitting and sampling
primitives, the fixed class key and the geometric arguments: two calls on
arbitrary (even different) instance states with identical geometric inputs
return identical masks. -/
theorem C10_area_union_deterministic (split : ℕ → ℕ × ℕ)
    (uniformSample : ℕ → ℝ → ℝ → ℕ → ℝ) (s1 s2 : ActiveStarState)
    (x0_ellipse y0_ellipse : ℕ → ℝ) (x0_circle y0_circle : ℝ)
    (alpha beta angle : ℕ → ℝ) (radius : ℝ) (occultation_possible : ℕ → Bool) :
    (area_union_call split uniformSample s1 x0_ellipse y0_ellipse x0_circle y0_circle
        alpha beta angle radius occultation_possible).1 = s1 ∧
    (area_union_call split uniformSample s1 x0_ellipse y0_ellipse x0_circle y0_circle
        alpha beta angle radius occultation_possible).2 =
      (area_union_call split uniformSample s2 x0_ellipse y0_ellipse x0_circle y0_circle
        alpha beta angle radius occultation_possible).2 :=
  ⟨rfl, rfl⟩

open MeasureTheory

/-- The Monte Carlo sample map of jax.py area_union_per_time lines 329-333:
an (angle, radius) sample pair is sent to the sky-plane point with
coordinates (radius cos angle + x0_circle, radius sin angle + y0_circle);
the sky plane is modelled as the complex plane. -/
def sample_to_sky (x0_circle y0_circle : ℝ) (p : ℝ × ℝ) : ℂ :=
  ⟨p.2 * Real.cos p.1 + x0_circle, p.2 * Real.sin p.1 + y0_circle⟩

/-- Distribution of the sampled (angle, radius) pairs of jax.py lines
329-331: theta_p uniform on [0, 2 pi) and rad_p uniform on [0, radius),
i.e. the normalized restriction of Lebesgue measure to the product box. -/
def mc_input_measure (radius : ℝ) : Measure (ℝ × ℝ) :=
  (ENNReal.ofReal (2 * Real.pi * radius))⁻¹ •
    volume.restrict (Set.Ico 0 (2 * Real.pi) ×ˢ Set.Ico 0 radius)

/-- Modelled from the spec: the uniform distribution over the planet disk,
the normalized restriction of the sky-plane area measure to the disk of the
planet radius about the planet position. -/
def uniform_disk_measure (center : ℂ) (radius : ℝ) : Measure ℂ :=
  (ENNReal.ofReal (Real.pi * radius ^ 2))⁻¹ • volume.restrict (Metric.ball center radius)

/-- Helper: the sample map is measurable. -/
theorem sample_to_sky_measurable (x0 y0 : ℝ) : Measurable (sample_to_sky x0 y0) := by
  have h : sample_to_sky x0 y0 = fun p : ℝ × ℝ =>
      Complex.measurableEquivRealProd.symm
        (p.2 * Real.cos p.1 + x0, p.2 * Real.sin p.1 + y0) := rfl
  rw [h]
  apply Complex.measurableEquivRealProd.symm.measurable.comp
  apply Measurable.prod
  · exact (measurable_snd.mul (Real.continuous_cos.measurable.comp measurable_fst)).add
      measurable_const
  · exact (measurable_snd.mul (Real.continuous_sin.measurable.comp measurable_fst)).add
      measurable_const

/-- Helper: distance from the sampled sky point to the planet center is the
sampled radius (for nonnegative radius samples). -/
theorem sample_to_sky_dist (x0 y0 theta u : ℝ) (hu : 0 ≤ u) :
    dist (sample_to_sky x0 y0 (theta, u)) (⟨x0, y0⟩ : ℂ) = u := by
  rw [Complex.dist_eq, Complex.abs_apply, Complex.normSq_apply]
  have hre : (sample_to_sky x0 y0 (theta, u) - (⟨x0, y0⟩ : ℂ)).re = u * Real.cos theta := by
    simp [sample_to_sky, Complex.sub_re]
  have him : (sample_to_sky x0 y0 (theta, u) - (⟨x0, y0⟩ : ℂ)).im = u * Real.sin theta := by
    simp [sample_to_sky, Complex.sub_im]
  rw [hre, him]
  have hsum : u * Real.cos theta * (u * Real.cos theta) +
      u * Real.sin theta * (u * Real.sin theta) = u ^ 2 := by
    have h1 := Real.sin_sq_add_cos_sq theta
    nlinarith [h1]
  rw [hsum, Real.sqrt_sq_eq_abs, abs_of_nonneg hu]

/-- Helper: the normalized pushforward mass that the code sampler puts
within half the planet radius of the planet center is one half. -/
theorem map_mc_half_ball (x0 y0 R : ℝ) (hR : 0 < R) :
    Measure.map (sample_to_sky x0 y0) (mc_input_measure R)
      (Metric.ball (⟨x0, y0⟩ : ℂ) (R / 2)) = ENNReal.ofReal (1 / 2) := by
  rw [Measure.map_apply (sample_to_sky_measurable x0 y0) measurableSet_ball]
  unfold mc_input_measure
  rw [Measure.smul_apply, smul_eq_mul,
    Measure.restrict_apply (sample_to_sky_measurable x0 y0 measurableSet_ball)]
  have hset : Set.preimage (sample_to_sky x0 y0) (Metric.ball (⟨x0, y0⟩ : ℂ) (R / 2)) ∩
      Set.Ico 0 (2 * Real.pi) ×ˢ Set.Ico 0 R =
      Set.Ico 0 (2 * Real.pi) ×ˢ Set.Ico 0 (R / 2) := by
    ext p
    obtain ⟨theta, u⟩ := p
    simp only [Set.mem_inter_iff, Set.mem_preimage, Metric.mem_ball, Set.mem_prod,
      Set.mem_Ico]
    constructor
    · rintro ⟨hd, ⟨ht1, ht2⟩, hu1, hu2⟩
      rw [sample_to_sky_dist x0 y0 theta u hu1] at hd
      exact ⟨⟨ht1, ht2⟩, hu1, hd⟩
    · rintro ⟨⟨ht1, ht2⟩, hu1, hu2⟩
      rw [sample_to_sky_dist x0 y0 theta u hu1]
      exact ⟨hu2, ⟨ht1, ht2⟩, hu1, by linarith⟩
  rw [hset, Measure.volume_eq_prod, Measure.prod_prod, Real.volume_Ico, Real.volume_Ico,
    sub_zero, sub_zero]
  have hA0 : ENNReal.ofReal (2 * Real.pi) ≠ 0 := by
    rw [Ne, ENNReal.ofReal_eq_zero, not_le]
    positivity
  have hB0 : ENNReal.ofReal R ≠ 0 := by
    rw [Ne, ENNReal.ofReal_eq_zero, not_le]
    exact hR
  have hsplit : ENNReal.ofReal (2 * Real.pi * R) =
      ENNReal.ofReal (2 * Real.pi) * ENNReal.ofReal R := by
    rw [ENNReal.ofReal_mul (by positivity)]
  have hhalf : ENNReal.ofReal (R / 2) = ENNReal.ofReal R * ENNReal.ofReal (1 / 2) := by
    rw [← ENNReal.ofReal_mul (le_of_lt hR), mul_one_div]
  rw [hsplit, hhalf,
    ENNReal.mul_inv (Or.inl hA0) (Or.inl ENNReal.ofReal_ne_top)]
  calc (ENNReal.ofReal (2 * Real.pi))⁻¹ * (ENNReal.ofReal R)⁻¹ *
        (ENNReal.ofReal (2 * Real.pi) * (ENNReal.ofReal R * ENNReal.ofReal (1 / 2)))
      = ((ENNReal.ofReal (2 * Real.pi))⁻¹ * ENNReal.ofReal (2 * Real.pi)) *
        (((ENNReal.ofReal R)⁻¹ * ENNReal.ofReal R) * ENNReal.ofReal (1 / 2)) := by
        ring
    _ = ENNReal.ofReal (1 / 2) := by
        rw [ENNReal.inv_mul_cancel hA0 ENNReal.ofReal_ne_top,
          ENNReal.inv_mul_cancel hB0 ENNReal.ofReal_ne_top, one_mul, one_mul]

/-- Helper: the uniform disk distribution puts mass one quarter within half
the planet radius of the center. -/
theorem uniform_disk_half_ball (c : ℂ) (R : ℝ) (hR : 0 < R) :
    uniform_disk_measure c R (Metric.ball c (R / 2)) = ENNReal.ofReal (1 / 4) := by
  unfold uniform_disk_measure
  rw [Measure.smul_apply, smul_eq_mul, Measure.restrict_apply measurableSet_ball,
    Set.inter_eq_self_of_subset_left (Metric.ball_subset_ball (by linarith)),
    Complex.volume_ball]
  have hpi : (NNReal.pi : ENNReal) = ENNReal.ofReal Real.pi := by
    rw [← ENNReal.ofReal_coe_nnreal, NNReal.coe_real_pi]
  have hsq : ENNReal.ofReal (R / 2) ^ 2 = ENNReal.ofReal (R ^ 2) * ENNReal.ofReal (1 / 4) := by
    rw [← ENNReal.ofReal_pow (by positivity), ← ENNReal.ofReal_mul (by positivity)]
    ring_nf
  have hP0 : ENNReal.ofReal Real.pi ≠ 0 := by
    rw [Ne, ENNReal.ofReal_eq_zero, not_le]
    exact Real.pi_pos
  have hB0 : ENNReal.ofReal (R ^ 2) ≠ 0 := by
    rw [Ne, ENNReal.ofReal_eq_zero, not_le]
    positivity
  have hsplit : ENNReal.ofReal (Real.pi * R ^ 2) =
      ENNReal.ofReal Real.pi * ENNReal.ofReal (R ^ 2) := by
    rw [ENNReal.ofReal_mul Real.pi_pos.le]
  rw [hpi, hsq, hsplit,
    ENNReal.mul_inv (Or.inl hP0) (Or.inl ENNReal.ofReal_ne_top)]
  calc (ENNReal.ofReal Real.pi)⁻¹ * (ENNReal.ofReal (R ^ 2))⁻¹ *
        (ENNReal.ofReal (R ^ 2) * ENNReal.ofReal (1 / 4) * ENNReal.ofReal Real.pi)
      = ((ENNReal.ofReal Real.pi)⁻¹ * ENNReal.ofReal Real.pi) *
        (((ENNReal.ofReal (R ^ 2))⁻¹ * ENNReal.ofReal (R ^ 2)) * ENNReal.ofReal (1 / 4)) := by
        ring
    _ = ENNReal.ofReal (1 / 4) := by
        rw [ENNReal.inv_mul_cancel hP0 ENNReal.ofReal_ne_top,
          ENNReal.inv_mul_cancel hB0 ENNReal.ofReal_ne_top, one_mul, one_mul]

/-- C5 amended: the statistical overlap sampler does NOT produce the uniform
distribution on the planet disk; because the radius is drawn uniformly on
[0, planet radius], the sampled points put probability one half (rather than
the uniform one quarter) within half the planet radius of the center; and a
sample is counted exactly when it passes the rotated ellipse-membership test
and lies within the stellar disk bound. -/
theorem C5_mc_sampling_distribution (x0 y0 R : ℝ) (hR : 0 < R) :
    Measure.map (sample_to_sky x0 y0) (mc_input_measure R)
        (Metric.ball (⟨x0, y0⟩ : ℂ) (R / 2)) = ENNReal.ofReal (1 / 2) ∧
    (∀ xp yp x0e y0e alpha beta angle : ℝ,
      find_overlap xp yp x0e y0e alpha beta angle ↔
        ((((xp - x0e) * Real.cos (radians_of_degrees angle) +
           (yp - y0e) * Real.sin (radians_of_degrees angle)) / alpha) ^ 2 +
         (((xp - x0e) * Real.sin (radians_of_degrees angle) -
           (yp - y0e) * Real.cos (radians_of_degrees angle)) / beta) ^ 2 < 1) ∧
        xp ^ 2 + yp ^ 2 < 1) := by
  refine ⟨map_mc_half_ball x0 y0 R hR, ?_⟩
  intro xp yp x0e y0e alpha beta angle
  unfold find_overlap in_ellipse on_star hypot
  rw [Real.sqrt_lt' one_pos, Real.sqrt_lt' one_pos, one_pow]

/-- Witness for C5 at planet center the origin and planet radius 1. -/
theorem C5_witness :
    Measure.map (sample_to_sky 0 0) (mc_input_measure 1)
      (Metric.ball ((⟨0, 0⟩ : ℂ)) (1 / 2)) = ENNReal.ofReal (1 / 2) :=
  (C5_mc_sampling_distribution 0 0 1 one_pos).1

/-- Counterexample to C5 as stated: at planet center the origin and planet
radius 1, the pushforward of the uniform (angle, radius) input distribution
under the sample map is not the uniform distribution over the planet disk;
the two measures disagree on the concrete disk of radius 1/2 about the
center (one half versus one quarter). -/
theorem C5_counterexample :
    Measure.map (sample_to_sky 0 0) (mc_input_measure 1) ≠ uniform_disk_measure (⟨0, 0⟩ : ℂ) 1 := by
  intro hEq
  have h1 := map_mc_half_ball 0 0 1 one_pos
  rw [hEq, uniform_disk_half_ball (⟨0, 0⟩ : ℂ) 1 one_pos] at h1
  have h2 : (1 / 4 : ℝ) = 1 / 2 :=
    (ENNReal.ofReal_eq_ofReal_iff (by norm_num) (by norm_num)).mp h1
  norm_num at h2

end

end Fleck
